import Mathlib

/-!
Verification development for the WordPress backup/restore tool (`main.py`).
The Python source is shallowly embedded: strings are `List Char`, the two
regex-based wp-config credential parsers are compiled by hand into a
deterministic character-level matcher (the concrete patterns involved admit
no backtracking ambiguity), and the `backup_site` / `restore_site`
orchestrations become pure functions over an environment record that fixes
the outcome of every external call (ssh, rsync, mysql, the filesystem).
-/

namespace WpBackup

/-- The single-quote character, kept out of source literals. -/
def squote : Char := Char.ofNat 39

/-- The double-quote character, kept out of source literals. -/
def dquote : Char := Char.ofNat 34

/-- The space character. -/
def spCh : Char := Char.ofNat 32

/-- The character class `['\x22]` of the Python patterns: either quote kind. -/
def isQuoteChar (c : Char) : Bool := c == squote || c == dquote

/-- Python regex `\s`: space, tab, newline, carriage return, vertical tab, form feed. -/
def isSpaceChar (c : Char) : Bool :=
  c == Char.ofNat 32 || c == Char.ofNat 9 || c == Char.ofNat 10 ||
  c == Char.ofNat 13 || c == Char.ofNat 11 || c == Char.ofNat 12

/-- Choice of quote character, `true` meaning the double quote. -/
def qc (b : Bool) : Char := if b then dquote else squote

/-- Match a literal pattern at the head of the input, returning the rest. -/
def stripPrefixCh : List Char → List Char → Option (List Char)
  | [], cs => some cs
  | _ :: _, [] => none
  | p :: ps, c :: cs => if p = c then stripPrefixCh ps cs else none

/-- Greedy `\s*`. Deterministic here: in the embedded patterns the token after
`\s*` is never itself a whitespace character, so maximal munch is the only
possible parse. -/
def skipSpaces : List Char → List Char
  | [] => []
  | c :: cs => if isSpaceChar c then skipSpaces cs else c :: cs

/-- Match the character class of either quote. -/
def expectQuote : List Char → Option (List Char)
  | [] => none
  | c :: cs => if isQuoteChar c then some cs else none

/-- Match one fixed character. -/
def expectCh (a : Char) : List Char → Option (List Char)
  | [] => none
  | c :: cs => if c = a then some cs else none

/-- Greedy `[^'\x22]*` split: the run of non-quote characters and the rest. -/
def takeNonQuote : List Char → List Char × List Char
  | [] => ([], [])
  | c :: cs =>
    if isQuoteChar c then ([], c :: cs)
    else
      let pr := takeNonQuote cs
      (c :: pr.1, pr.2)

/-- Attempt to match, anchored at the head of `cs`, the Python pattern
`define\(\s*['\x22]KEY['\x22]\s*,\s*['\x22]([^'\x22]+)['\x22]` followed, when
`np` is true (the local-file parser), by `\)`. Returns the captured value
group. The pattern is deterministic, so this function computes exactly the
regex engine's result at this start position. -/
def matchDefineAt (key : List Char) (np : Bool) (cs : List Char) : Option (List Char) :=
  (stripPrefixCh (("define(").data) cs).bind fun c1 =>
  (expectQuote (skipSpaces c1)).bind fun c2 =>
  (stripPrefixCh key c2).bind fun c3 =>
  (expectQuote c3).bind fun c4 =>
  (expectCh ',' (skipSpaces c4)).bind fun c5 =>
  (expectQuote (skipSpaces c5)).bind fun c6 =>
  (fun pr : List Char × List Char =>
    if pr.1 = [] then none
    else (expectQuote pr.2).bind fun c7 =>
      if np then (expectCh ')' c7).bind fun _ => some pr.1
      else some pr.1) (takeNonQuote c6)

/-- `re.search`: try the anchored match at each start position, leftmost first. -/
def searchDefine (key : List Char) (np : Bool) : List Char → Option (List Char)
  | [] => none
  | c :: cs =>
    match matchDefineAt key np (c :: cs) with
    | some v => some v
    | none => searchDefine key np cs

/-- A canonical configuration line `define(<q1>KEY<q2>, <q3>value<q4>);`
with each of the four quote positions chosen independently. -/
def mkLine (q : Bool × Bool × Bool × Bool) (key v : List Char) : List Char :=
  (("define(").data) ++
    (qc q.1 :: (key ++ (qc q.2.1 :: ',' :: spCh ::
      (qc q.2.2.1 :: (v ++ (qc q.2.2.2 :: ')' :: ';' :: []))))))

/-- Boolean list-prefix test. -/
def isPrefixCh : List Char → List Char → Bool
  | [], _ => true
  | _ :: _, [] => false
  | p :: ps, c :: cs => p = c && isPrefixCh ps cs

/-- Python's substring operator `pat in line`. -/
def containsSub (pat : List Char) : List Char → Bool
  | [] => isPrefixCh pat []
  | c :: cs => isPrefixCh pat (c :: cs) || containsSub pat cs

/-- The marker token `DB_NAME`. -/
def nmName : List Char := ("DB_NAME").data

/-- The marker token `DB_USER`. -/
def nmUser : List Char := ("DB_USER").data

/-- The marker token `DB_PASSWORD`. -/
def nmPass : List Char := ("DB_PASSWORD").data

/-- The marker token `DB_HOST`. -/
def nmHost : List Char := ("DB_HOST").data

/-- The credentials dictionary built by both extractors: `None` is `none`.
`db_host` starts out as `some "localhost"` and can only be overwritten by a
successful match, so it is never `none` in parser output. -/
structure WpCreds where
  db_name : Option (List Char)
  db_user : Option (List Char)
  db_password : Option (List Char)
  db_host : Option (List Char)
  deriving DecidableEq

/-- The initial dictionary of both parsers (`db_host` defaulted). -/
def initCreds : WpCreds := ⟨none, none, none, some (("localhost").data)⟩

/-- One loop iteration of either parser: the `if 'DB_NAME' in line ... elif`
dispatch followed by `re.search` with the corresponding pattern; a failed
search leaves the dictionary unchanged. `np` is true for the local-file
parser, whose patterns end in an extra `\)`. -/
def updLine (np : Bool) (c : WpCreds) (line : List Char) : WpCreds :=
  if containsSub nmName line then
    match searchDefine nmName np line with
    | some v => { c with db_name := some v }
    | none => c
  else if containsSub nmUser line then
    match searchDefine nmUser np line with
    | some v => { c with db_user := some v }
    | none => c
  else if containsSub nmPass line then
    match searchDefine nmPass np line with
    | some v => { c with db_password := some v }
    | none => c
  else if containsSub nmHost line then
    match searchDefine nmHost np line with
    | some v => { c with db_host := some v }
    | none => c
  else c

/-- Failure modes of credential extraction, both surfaced as `ValueError` in
the source: some required dictionary entries are still `None` after parsing,
or the remote command itself failed (`CalledProcessError` re-raised as
`ValueError`). -/
inductive CredError
  | missing (fields : List (List Char))
  | sshFailed
  deriving DecidableEq

/-- The `missing` list, in the dictionary's insertion order. -/
def missingOf (c : WpCreds) : List (List Char) :=
  (if c.db_name = none then [("db_name").data] else []) ++
  (if c.db_user = none then [("db_user").data] else []) ++
  (if c.db_password = none then [("db_password").data] else []) ++
  (if c.db_host = none then [("db_host").data] else [])

/-- The shared body of `extract_db_credentials_from_wpconfig` (with `np =
false`) and `extract_db_credentials_from_local_wpconfig` (with `np = true`):
fold the per-line update over the lines, then fail if anything is missing. -/
def parseWpconfig (np : Bool) (lines : List (List Char)) : Except CredError WpCreds :=
  let c := lines.foldl (updLine np) initCreds
  match missingOf c with
  | [] => .ok c
  | ms => .error (.missing ms)

instance {α β : Type} [DecidableEq α] [DecidableEq β] : DecidableEq (Except α β) :=
  fun x y =>
    match x, y with
    | .ok a, .ok b =>
      if h : a = b then isTrue (by rw [h]) else isFalse (fun he => h (Except.ok.inj he))
    | .error a, .error b =>
      if h : a = b then isTrue (by rw [h]) else isFalse (fun he => h (Except.error.inj he))
    | .ok _, .error _ => isFalse (fun he => Except.noConfusion he)
    | .error _, .ok _ => isFalse (fun he => Except.noConfusion he)

/-- `extract_db_credentials_from_wpconfig`: `none` models the remote grep
command failing (`CalledProcessError`, re-raised as `ValueError`); otherwise
the grep output lines are parsed with the remote patterns. -/
def extractRemote (remoteLines : Option (List (List Char))) : Except CredError WpCreds :=
  match remoteLines with
  | none => .error .sshFailed
  | some ls => parseWpconfig false ls

/-- `extract_db_credentials_from_local_wpconfig` applied to the file's lines. -/
def extractLocal (lines : List (List Char)) : Except CredError WpCreds :=
  parseWpconfig true lines

/-- The parsed command-line arguments relevant to the orchestration.
Optional database flags default to `None` in argparse, hence `Option`. -/
structure Args where
  db_name : Option (List Char)
  db_user : Option (List Char)
  db_password : Option (List Char)
  db_host : Option (List Char)
  db_credentials_override : Bool
  ssh_user : List Char
  ssh_host : List Char
  ssh_key : List Char
  wp_path : List Char
  ssh_port : Nat
  deriving DecidableEq

/-- Python's `x or default` on an optional string: `None` and the empty
string are falsy. -/
def pyOr (o : Option (List Char)) (d : List Char) : List Char :=
  match o with
  | none => d
  | some s => if s = [] then d else s

/-- Python's f-string rendering of a possibly-`None` string. -/
def pyStrOpt : Option (List Char) → List Char
  | none => ("None").data
  | some s => s

/-- Exceptions that can escape the orchestration: a `ValueError` from
credential extraction, or a `CalledProcessError` from a `check=True`
subprocess call. -/
inductive PyErr
  | credErr (e : CredError)
  | calledProcessError
  deriving DecidableEq

/-- How one call of `backup_site` / `restore_site` ends: `return True`,
`return False`, or an uncaught exception. -/
inductive Outcome
  | retTrue
  | retFalse
  | raised (e : PyErr)
  deriving DecidableEq

/-- Environment of one `restore_site` call: the operator arguments plus the
outcome of every external interaction, in program order. `remoteLines` is
the remote grep's output (`none`: the ssh command failed); the extracted
archive determines `localWpconfigLines` (the backup's `files/wp-config.php`,
`none` when absent), `filesDirExists` and `dbDirFiles` (the `database/`
directory listing in order, `none` when the directory is absent). The
remaining fields are subprocess exit codes and the table-enumeration output.
`catExit` and `sshImportExit` are the exit codes of the two import-pipe
processes. -/
structure RestoreEnv where
  args : Args
  inputFileExists : Bool
  remoteLines : Option (List (List Char))
  localWpconfigLines : Option (List (List Char))
  filesDirExists : Bool
  rsyncExit : Nat
  dbDirFiles : Option (List (List Char))
  enumExit : Nat
  enumStdout : List Char
  dropExit : Nat
  catExit : Nat
  sshImportExit : Nat
  deriving DecidableEq

/-- Observable trace of one `restore_site` call. -/
structure RTrace where
  outcome : Outcome
  tempCreated : Bool
  tempDestroyed : Bool
  credsUsed : Option WpCreds
  localLookupTried : Bool
  rsyncRan : Bool
  dbFileUsed : Option (List Char)
  dropExecuted : Bool
  importRan : Bool
  deriving DecidableEq

/-- Result of the credential-resolution block of `restore_site` (source
lines 192-213): a credentials dictionary (with whether the local-file
fallback produced it), the `return False` path (remote failed, no override,
no wp-config in the backup), or an uncaught `ValueError` (the local parse
itself failed inside the `except` handler). -/
inductive ResolveRes
  | ok (c : WpCreds) (localTried : Bool)
  | earlyFalse
  | raise (e : PyErr)
  deriving DecidableEq

/-- The credential-resolution block of `restore_site`: try the remote
extraction first; only on its failure consult the override flag; without the
override, parse the wp-config file inside the extracted backup if present;
with the override, build the dictionary directly from the (possibly absent)
operator-supplied arguments, defaulting the host. -/
def resolveRestoreCreds (env : RestoreEnv) : ResolveRes :=
  match extractRemote env.remoteLines with
  | .ok c => .ok c false
  | .error _ =>
    if env.args.db_credentials_override = false then
      match env.localWpconfigLines with
      | some ls =>
        match parseWpconfig true ls with
        | .ok c => .ok c true
        | .error e => .raise (.credErr e)
      | none => .earlyFalse
    else
      .ok ⟨env.args.db_name, env.args.db_user, env.args.db_password,
           some (pyOr env.args.db_host (("localhost").data))⟩ false

/-- Boolean list-suffix test, Python's `str.endswith`. -/
def isSuffixCh (pat l : List Char) : Bool :=
  isPrefixCh pat.reverse l.reverse

/-- Python's `f.endswith('.sql')`. -/
def endsWithSql (f : List Char) : Bool :=
  isSuffixCh ((".sql").data) f

/-- The dump-file lookup of `restore_site` (source lines 233-248), returning
the name of the file finally used, or `none` for the `return False` path:
use `<db_name>.sql` if it exists; otherwise, if the `database/` directory
exists, use the first `.sql` entry of its listing, if any. -/
def lookupDbFile (dbDir : Option (List (List Char))) (dbName : List Char) :
    Option (List Char) :=
  let exact := dbName ++ ((".sql").data)
  match dbDir with
  | none => none
  | some fs =>
    if exact ∈ fs then some exact
    else
      match fs.filter endsWithSql with
      | f :: _ => some f
      | [] => none

/-- `restore_site` after credential resolution succeeded with dictionary `c`
(`lt`: the local-file fallback produced it): the `files/` check, the rsync
with `--delete` (`check=True`), the dump-file lookup, the best-effort
table-clearing (enumeration with `check=False`, the drop batch with
`check=True` only when enumeration exited zero with non-empty output), and
the import pipe, whose two exit codes are never consulted. -/
def restoreAfterCreds (env : RestoreEnv) (c : WpCreds) (lt : Bool) : RTrace :=
  if env.filesDirExists = false then
    ⟨.retFalse, false, false, some c, lt, false, none, false, false⟩
  else if env.rsyncExit ≠ 0 then
    ⟨.raised .calledProcessError, false, false, some c, lt, true, none, false, false⟩
  else
    match lookupDbFile env.dbDirFiles (pyStrOpt c.db_name) with
    | none => ⟨.retFalse, false, false, some c, lt, true, none, false, false⟩
    | some f =>
      if env.enumExit = 0 ∧ env.enumStdout ≠ [] then
        if env.dropExit ≠ 0 then
          ⟨.raised .calledProcessError, false, false, some c, lt, true, some f, true, false⟩
        else
          ⟨.retTrue, false, false, some c, lt, true, some f, true, true⟩
      else
        ⟨.retTrue, false, false, some c, lt, true, some f, false, true⟩

/-- The body of `restore_site` inside the temporary-directory block. -/
def restoreBody (env : RestoreEnv) : RTrace :=
  match resolveRestoreCreds env with
  | .raise e => ⟨.raised e, false, false, none, true, false, none, false, false⟩
  | .earlyFalse => ⟨.retFalse, false, false, none, true, false, none, false, false⟩
  | .ok c lt => restoreAfterCreds env c lt

/-- `restore_site`: the input-archive existence check, then the body run
under `with tempfile.TemporaryDirectory()`, whose semantics create the
directory on entry and remove it on every exit, normal or exceptional. -/
def restore_site (env : RestoreEnv) : RTrace :=
  if env.inputFileExists = false then
    ⟨.retFalse, false, false, none, false, false, none, false, false⟩
  else
    let t := restoreBody env
    { t with tempCreated := true, tempDestroyed := true }

/-- Environment of one `backup_site` call. -/
structure BackupEnv where
  args : Args
  remoteLines : Option (List (List Char))
  dumpExit : Nat
  rsyncExit : Nat
  deriving DecidableEq

/-- Observable trace of one `backup_site` call. -/
structure BTrace where
  outcome : Outcome
  tempCreated : Bool
  tempDestroyed : Bool
  dumpRan : Bool
  rsyncRan : Bool
  deriving DecidableEq

/-- `backup_site`: remote credential extraction happens before the temporary
directory is created (an extraction failure propagates with no WorkingArea
in existence); inside the `with` block the dump and the rsync both run with
`check=True`, then the archive is written. -/
def backup_site (env : BackupEnv) : BTrace :=
  match extractRemote env.remoteLines with
  | .error e => ⟨.raised (.credErr e), false, false, false, false⟩
  | .ok _ =>
    let body : BTrace :=
      if env.dumpExit ≠ 0 then ⟨.raised .calledProcessError, false, false, true, false⟩
      else if env.rsyncExit ≠ 0 then ⟨.raised .calledProcessError, false, false, true, true⟩
      else ⟨.retTrue, false, false, true, true⟩
    { body with tempCreated := true, tempDestroyed := true }

/-- The rsync argument list built by `backup_site` (source lines 147-153). -/
def backupRsyncCmd (a : Args) (filesDir : List Char) : List (List Char) :=
  [("rsync").data, ("-avz").data, ("-e").data,
   (("ssh -i ").data) ++ a.ssh_key ++ ((" -p ").data) ++ (toString a.ssh_port).data,
   a.ssh_user ++ (("@").data) ++ a.ssh_host ++ ((":").data) ++ a.wp_path ++ (("/").data),
   filesDir ++ (("/").data)]

/-- The rsync argument list built by `restore_site` (source lines 222-229). -/
def restoreRsyncCmd (a : Args) (filesDir : List Char) : List (List Char) :=
  [("rsync").data, ("-avz").data, ("--delete").data, ("-e").data,
   (("ssh -i ").data) ++ a.ssh_key ++ ((" -p ").data) ++ (toString a.ssh_port).data,
   filesDir ++ (("/").data),
   a.ssh_user ++ (("@").data) ++ a.ssh_host ++ ((":").data) ++ a.wp_path ++ (("/").data)]

/-- One regular file of a WorkingArea or archive: its path relative to the
WorkingArea root, as components, and its byte content. -/
structure FsEntry where
  path : List (List Char)
  content : List Nat
  deriving DecidableEq

/-- Whether an entry is a file strictly below the subtree directory `d`. -/
def underDir (d : List Char) (e : FsEntry) : Bool :=
  match e.path with
  | a :: _ :: _ => decide (a = d)
  | _ => false

/-- Whether a relative path lies strictly below the subtree directory `d`. -/
def pathUnder (d : List Char) (p : List (List Char)) : Bool :=
  match p with
  | a :: _ :: _ => decide (a = d)
  | _ => false

/-- The zip-writing loop of `backup_site` (source lines 158-171): walk the
`database/` subtree and then the `files/` subtree, writing every regular
file under the archive name `os.path.relpath(file_path, temp_dir)` — its
path relative to the WorkingArea root. -/
def createArchive (wa : List FsEntry) : List FsEntry :=
  wa.filter (underDir (("database").data)) ++ wa.filter (underDir (("files").data))

/-- `zipf.extractall(temp_dir)`: every archive entry is recreated at its
relative path under a fresh WorkingArea. -/
def extractArchive (ar : List FsEntry) : List FsEntry := ar

/-- Reading a file of a WorkingArea by relative path. -/
def fsLookup (wa : List FsEntry) (p : List (List Char)) : Option (List Nat) :=
  match wa.filter (fun e => decide (e.path = p)) with
  | e :: _ => some e.content
  | [] => none

/-- Concrete arguments with no credential flags. -/
def argsPlain : Args :=
  ⟨none, none, none, none, false,
   ("root").data, ("h1").data, ("key").data, ("/var/www").data, 22⟩

/-- Concrete arguments with the override flag and full explicit credentials. -/
def argsOverride : Args :=
  ⟨some (("other").data), some (("u").data), some (("p").data), none, true,
   ("root").data, ("h1").data, ("key").data, ("/var/www").data, 22⟩

/-- Concrete arguments with the override flag but no `--db-name`. -/
def argsOverrideNoName : Args :=
  ⟨none, some (("u").data), some (("p").data), none, true,
   ("root").data, ("h1").data, ("key").data, ("/var/www").data, 22⟩

/-- A well-formed remote wp-config grep output defining name `wp`, user
`admin`, password `secret`, host `dbh`, with mixed quote styles. -/
def goodLines : List (List Char) :=
  [mkLine (false, false, true, true) nmName (("wp").data),
   mkLine (true, true, false, false) nmUser (("admin").data),
   mkLine (false, true, true, false) nmPass (("secret").data),
   mkLine (true, false, false, true) nmHost (("dbh").data)]

/-- The credentials that `goodLines` parses to. -/
def goodCreds : WpCreds :=
  ⟨some (("wp").data), some (("admin").data),
   some (("secret").data), some (("dbh").data)⟩

/-- Restore run in which every step succeeds except the remote-session
process of the import pipe, which exits 1 (the feeding process exits 0). -/
def envImportFail : RestoreEnv :=
  ⟨argsPlain, true, some goodLines, none, true, 0,
   some [(("wp.sql").data)], 1, [], 0, 0, 1⟩

/-- Restore run with the override flag in which the remote extraction
succeeds (with credentials different from the override values). -/
def envOverrideRemoteOk : RestoreEnv :=
  ⟨argsOverride, true, some goodLines, none, true, 0,
   some [(("wp.sql").data)], 1, [], 0, 0, 0⟩

/-- Restore run whose `database/` subtree holds two `.sql` files, neither
named `wp.sql` (the resolved database name is `wp`). -/
def envTwoSql : RestoreEnv :=
  ⟨argsPlain, true, some goodLines, none, true, 0,
   some [(("a.sql").data), (("b.sql").data)], 1, [], 0, 0, 0⟩

/-- Restore run with the override flag but no `--db-name`, the remote
extraction failing, and a `database/None.sql` file present. -/
def envOverrideNoName : RestoreEnv :=
  ⟨argsOverrideNoName, true, none, none, true, 0,
   some [(("None.sql").data)], 1, [], 0, 0, 0⟩

theorem stripPrefixCh_append (p cs : List Char) : stripPrefixCh p (p ++ cs) = some cs := by
  induction p with
  | nil => rfl
  | cons a as ih => simp [stripPrefixCh, ih]

theorem skipSpaces_comma (l : List Char) : skipSpaces (',' :: l) = ',' :: l := rfl

theorem skipSpaces_sp (l : List Char) : skipSpaces (spCh :: l) = skipSpaces l := rfl

theorem isQuoteChar_qc (b : Bool) : isQuoteChar (qc b) = true := by
  cases b <;> rfl

theorem skipSpaces_qc (b : Bool) (l : List Char) : skipSpaces (qc b :: l) = qc b :: l := by
  cases b <;> rfl

theorem expectQuote_qc (b : Bool) (l : List Char) : expectQuote (qc b :: l) = some l := by
  cases b <;> rfl

theorem expectCh_self (a : Char) (l : List Char) : expectCh a (a :: l) = some l := by
  simp [expectCh]

theorem takeNonQuote_append (v : List Char) (d : Char) (r : List Char)
    (hv : ∀ c ∈ v, isQuoteChar c = false) (hd : isQuoteChar d = true) :
    takeNonQuote (v ++ d :: r) = (v, d :: r) := by
  induction v with
  | nil => simp [takeNonQuote, hd]
  | cons a as ih =>
    have ha : isQuoteChar a = false := hv a (List.mem_cons_self a as)
    have ih2 := ih (fun c hc => hv c (List.mem_cons_of_mem a hc))
    simp [takeNonQuote, ha, ih2]

theorem matchDefineAt_mkLine (key : List Char) (np : Bool)
    (q : Bool × Bool × Bool × Bool) (v : List Char)
    (hv : ∀ c ∈ v, isQuoteChar c = false) (hne : v ≠ []) :
    matchDefineAt key np (mkLine q key v) = some v := by
  unfold matchDefineAt mkLine
  rw [stripPrefixCh_append]
  simp only [Option.some_bind]
  rw [skipSpaces_qc, expectQuote_qc]
  simp only [Option.some_bind]
  rw [stripPrefixCh_append]
  simp only [Option.some_bind]
  rw [expectQuote_qc]
  simp only [Option.some_bind]
  rw [skipSpaces_comma, expectCh_self]
  simp only [Option.some_bind]
  rw [skipSpaces_sp, skipSpaces_qc, expectQuote_qc]
  simp only [Option.some_bind]
  rw [takeNonQuote_append v (qc q.2.2.2) _ hv (isQuoteChar_qc _)]
  simp only [hne, if_false]
  rw [expectQuote_qc]
  simp only [Option.some_bind]
  cases np with
  | false => simp
  | true =>
    rw [expectCh_self]
    simp

theorem searchDefine_of_matchAt (key : List Char) (np : Bool) (cs v : List Char)
    (h : matchDefineAt key np cs = some v) : searchDefine key np cs = some v := by
  cases cs with
  | nil => exact absurd h (by simp [matchDefineAt, stripPrefixCh])
  | cons c cs => simp [searchDefine, h]

theorem searchDefine_mkLine (key : List Char) (np : Bool)
    (q : Bool × Bool × Bool × Bool) (v : List Char)
    (hv : ∀ c ∈ v, isQuoteChar c = false) (hne : v ≠ []) :
    searchDefine key np (mkLine q key v) = some v :=
  searchDefine_of_matchAt _ _ _ _ (matchDefineAt_mkLine key np q v hv hne)

theorem matchDefineAt_ne_nil (key : List Char) (np : Bool) (cs v : List Char)
    (h : matchDefineAt key np cs = some v) : v ≠ [] := by
  unfold matchDefineAt at h
  simp only [Option.bind_eq_some] at h
  obtain ⟨c1, -, c2, -, c3, -, c4, -, c5, -, c6, -, h⟩ := h
  by_cases hp : (takeNonQuote c6).1 = []
  · simp [hp] at h
  · simp only [hp, if_false, Option.bind_eq_some] at h
    obtain ⟨c7, -, h⟩ := h
    cases np with
    | false =>
      simp only [if_false, Bool.false_eq_true] at h
      cases h
      exact hp
    | true =>
      simp only [if_true, Option.bind_eq_some] at h
      obtain ⟨c8, -, h⟩ := h
      cases h
      exact hp

theorem searchDefine_ne_nil (key : List Char) (np : Bool) (line v : List Char)
    (h : searchDefine key np line = some v) : v ≠ [] := by
  induction line with
  | nil => exact absurd h (by simp [searchDefine])
  | cons c cs ih =>
    rw [searchDefine] at h
    cases hm : matchDefineAt key np (c :: cs) with
    | some w =>
      rw [hm] at h
      cases h
      exact matchDefineAt_ne_nil key np (c :: cs) v hm
    | none =>
      rw [hm] at h
      exact ih h

theorem isPrefixCh_append (p b : List Char) : isPrefixCh p (p ++ b) = true := by
  induction p with
  | nil => rfl
  | cons a as ih => simp [isPrefixCh, ih]

theorem containsSub_here (pat b : List Char) : containsSub pat (pat ++ b) = true := by
  cases pat with
  | nil =>
    cases b with
    | nil => rfl
    | cons x xs => simp [containsSub, isPrefixCh]
  | cons a as =>
    simp only [containsSub, List.cons_append, Bool.or_eq_true]
    exact Or.inl (by simp [isPrefixCh, isPrefixCh_append])

theorem containsSub_append (a pat b : List Char) :
    containsSub pat (a ++ (pat ++ b)) = true := by
  induction a with
  | nil => simpa using containsSub_here pat b
  | cons c cs ih => simp [containsSub, ih]

theorem containsKey_mkLine (q : Bool × Bool × Bool × Bool) (key v : List Char) :
    containsSub key (mkLine q key v) = true := by
  unfold mkLine
  rw [List.append_cons]
  exact containsSub_append _ key _

theorem updLine_name (np : Bool) (c : WpCreds) (line v : List Char)
    (h1 : containsSub nmName line = true)
    (h2 : searchDefine nmName np line = some v) :
    updLine np c line = { c with db_name := some v } := by
  simp [updLine, h1, h2]

theorem updLine_user (np : Bool) (c : WpCreds) (line v : List Char)
    (h0 : containsSub nmName line = false)
    (h1 : containsSub nmUser line = true)
    (h2 : searchDefine nmUser np line = some v) :
    updLine np c line = { c with db_user := some v } := by
  simp [updLine, h0, h1, h2]

theorem updLine_pass (np : Bool) (c : WpCreds) (line v : List Char)
    (h0 : containsSub nmName line = false)
    (h0b : containsSub nmUser line = false)
    (h1 : containsSub nmPass line = true)
    (h2 : searchDefine nmPass np line = some v) :
    updLine np c line = { c with db_password := some v } := by
  simp [updLine, h0, h0b, h1, h2]

theorem updLine_host (np : Bool) (c : WpCreds) (line v : List Char)
    (h0 : containsSub nmName line = false)
    (h0b : containsSub nmUser line = false)
    (h0c : containsSub nmPass line = false)
    (h1 : containsSub nmHost line = true)
    (h2 : searchDefine nmHost np line = some v) :
    updLine np c line = { c with db_host := some v } := by
  simp [updLine, h0, h0b, h0c, h1, h2]

/-- C4: for every well-formed configuration content (each relevant line a
`define(<q>KEY<q>, <q>value<q>);` with the four quote positions chosen
independently from single or double quotes, values non-empty, quote-free and
not containing an earlier marker token), credential parsing — the remote
parser `extract_db_credentials_from_wpconfig` (`np = false`) and the
local-file parser `extract_db_credentials_from_local_wpconfig` (`np = true`)
— extracts exactly the four fields regardless of quote style; with the host
line absent the result has host `"localhost"`; with the name, user or
password line absent the parse fails with a `ValueError` naming the missing
field. -/
theorem c4_credential_parsing_four_fields (np : Bool)
    (qn qu qp qh : Bool × Bool × Bool × Bool) (vn vu vp vh : List Char)
    (hvn : ∀ c ∈ vn, isQuoteChar c = false) (hn : vn ≠ [])
    (hvu : ∀ c ∈ vu, isQuoteChar c = false) (hu : vu ≠ [])
    (hvp : ∀ c ∈ vp, isQuoteChar c = false) (hp : vp ≠ [])
    (hvh : ∀ c ∈ vh, isQuoteChar c = false) (hh : vh ≠ [])
    (wU : containsSub nmName (mkLine qu nmUser vu) = false)
    (wP1 : containsSub nmName (mkLine qp nmPass vp) = false)
    (wP2 : containsSub nmUser (mkLine qp nmPass vp) = false)
    (wH1 : containsSub nmName (mkLine qh nmHost vh) = false)
    (wH2 : containsSub nmUser (mkLine qh nmHost vh) = false)
    (wH3 : containsSub nmPass (mkLine qh nmHost vh) = false) :
    extractRemote (some [mkLine qn nmName vn, mkLine qu nmUser vu,
        mkLine qp nmPass vp, mkLine qh nmHost vh]) =
      parseWpconfig false [mkLine qn nmName vn, mkLine qu nmUser vu,
        mkLine qp nmPass vp, mkLine qh nmHost vh] ∧
    extractLocal [mkLine qn nmName vn, mkLine qu nmUser vu,
        mkLine qp nmPass vp, mkLine qh nmHost vh] =
      parseWpconfig true [mkLine qn nmName vn, mkLine qu nmUser vu,
        mkLine qp nmPass vp, mkLine qh nmHost vh] ∧
    parseWpconfig np [mkLine qn nmName vn, mkLine qu nmUser vu,
        mkLine qp nmPass vp, mkLine qh nmHost vh] =
      .ok ⟨some vn, some vu, some vp, some vh⟩ ∧
    parseWpconfig np [mkLine qn nmName vn, mkLine qu nmUser vu,
        mkLine qp nmPass vp] =
      .ok ⟨some vn, some vu, some vp, some (("localhost").data)⟩ ∧
    parseWpconfig np [mkLine qu nmUser vu, mkLine qp nmPass vp,
        mkLine qh nmHost vh] =
      .error (.missing [("db_name").data]) ∧
    parseWpconfig np [mkLine qn nmName vn, mkLine qp nmPass vp,
        mkLine qh nmHost vh] =
      .error (.missing [("db_user").data]) ∧
    parseWpconfig np [mkLine qn nmName vn, mkLine qu nmUser vu,
        mkLine qh nmHost vh] =
      .error (.missing [("db_password").data]) := by
  have eN : ∀ c, updLine np c (mkLine qn nmName vn) = { c with db_name := some vn } :=
    fun c => updLine_name np c _ vn (containsKey_mkLine qn nmName vn)
      (searchDefine_mkLine nmName np qn vn hvn hn)
  have eU : ∀ c, updLine np c (mkLine qu nmUser vu) = { c with db_user := some vu } :=
    fun c => updLine_user np c _ vu wU (containsKey_mkLine qu nmUser vu)
      (searchDefine_mkLine nmUser np qu vu hvu hu)
  have eP : ∀ c, updLine np c (mkLine qp nmPass vp) = { c with db_password := some vp } :=
    fun c => updLine_pass np c _ vp wP1 wP2 (containsKey_mkLine qp nmPass vp)
      (searchDefine_mkLine nmPass np qp vp hvp hp)
  have eH : ∀ c, updLine np c (mkLine qh nmHost vh) = { c with db_host := some vh } :=
    fun c => updLine_host np c _ vh wH1 wH2 wH3 (containsKey_mkLine qh nmHost vh)
      (searchDefine_mkLine nmHost np qh vh hvh hh)
  refine ⟨rfl, rfl, ?_, ?_, ?_, ?_, ?_⟩ <;>
    simp [parseWpconfig, List.foldl_cons, List.foldl_nil, eN, eU, eP, eH,
      initCreds, missingOf]

/-- Witness for C4 at a concrete mixed-quote configuration. -/
theorem c4_credential_parsing_four_fields_witness :
    parseWpconfig true
      [mkLine (false, false, true, true) nmName (("wp").data),
       mkLine (true, true, false, false) nmUser (("admin").data),
       mkLine (false, true, true, false) nmPass (("secret").data),
       mkLine (true, false, false, true) nmHost (("dbh").data)] =
      .ok ⟨some (("wp").data), some (("admin").data),
           some (("secret").data), some (("dbh").data)⟩ :=
  (c4_credential_parsing_four_fields true
    (false, false, true, true) (true, true, false, false)
    (false, true, true, false) (true, false, false, true)
    (("wp").data) (("admin").data) (("secret").data) (("dbh").data)
    (by decide) (by decide) (by decide) (by decide) (by decide) (by decide)
    (by decide) (by decide) (by decide) (by decide) (by decide) (by decide)
    (by decide) (by decide)).2.2.1

theorem restoreAfterCreds_credsUsed (env : RestoreEnv) (c : WpCreds) (lt : Bool) :
    (restoreAfterCreds env c lt).credsUsed = some c ∧
    (restoreAfterCreds env c lt).localLookupTried = lt := by
  unfold restoreAfterCreds
  split
  · exact ⟨rfl, rfl⟩
  split
  · exact ⟨rfl, rfl⟩
  split
  · exact ⟨rfl, rfl⟩
  split
  · split
    · exact ⟨rfl, rfl⟩
    · exact ⟨rfl, rfl⟩
  · exact ⟨rfl, rfl⟩

/-- C1 (code bug): a restore run in which every step succeeds except the
remote-session process of the import pipe, which exits 1 while the feeding
process exits 0, still returns `True` — the source never consults either
`Popen` return code, so the claimed `RestoreError` is not reported. -/
theorem c1_import_exit_ignored :
    (restore_site envImportFail).outcome = .retTrue ∧
    (restore_site envImportFail).importRan = true ∧
    envImportFail.sshImportExit = 1 ∧ envImportFail.catExit = 0 := by
  decide

/-- C2 counterexample: a restore invocation with the full explicit override
(`--db-credentials-override --db-name other ...`) in which the remote
extraction succeeds uses the remotely extracted credentials, not the
operator-supplied ones — credential resolution does not skip the remote
lookup. -/
theorem c2_override_counterexample :
    (restore_site envOverrideRemoteOk).credsUsed = some goodCreds ∧
    envOverrideRemoteOk.args.db_credentials_override = true ∧
    envOverrideRemoteOk.args.db_name = some (("other").data) ∧
    goodCreds.db_name ≠ some (("other").data) := by
  decide

/-- C2 as amended: on a restore with the override flag, the remote lookup is
still attempted first; only when it fails are the operator-supplied values
used directly — the local-file lookup is then skipped and the host defaults
to `"localhost"` when not supplied. -/
theorem c2_override_after_remote_failure (env : RestoreEnv) (e : CredError)
    (hin : env.inputFileExists = true)
    (hov : env.args.db_credentials_override = true)
    (he : extractRemote env.remoteLines = .error e) :
    (restore_site env).credsUsed =
      some ⟨env.args.db_name, env.args.db_user, env.args.db_password,
            some (pyOr env.args.db_host (("localhost").data))⟩ ∧
    (restore_site env).localLookupTried = false ∧
    (env.args.db_host = none →
      pyOr env.args.db_host (("localhost").data) = ("localhost").data) := by
  have hres : resolveRestoreCreds env =
      .ok ⟨env.args.db_name, env.args.db_user, env.args.db_password,
           some (pyOr env.args.db_host (("localhost").data))⟩ false := by
    unfold resolveRestoreCreds
    rw [he]
    simp [hov]
  have hbody : restoreBody env =
      restoreAfterCreds env
        ⟨env.args.db_name, env.args.db_user, env.args.db_password,
         some (pyOr env.args.db_host (("localhost").data))⟩ false := by
    simp [restoreBody, hres]
  have hproj := restoreAfterCreds_credsUsed env
    ⟨env.args.db_name, env.args.db_user, env.args.db_password,
     some (pyOr env.args.db_host (("localhost").data))⟩ false
  refine ⟨?_, ?_, ?_⟩
  · simp [restore_site, hin, hbody, hproj.1]
  · simp [restore_site, hin, hbody, hproj.2]
  · intro hh
    simp [pyOr, hh]

/-- Witness for the amended C2: override with the remote extraction failing
and no `--db-host`. -/
theorem c2_override_after_remote_failure_witness :
    (restore_site envOverrideNoName).credsUsed =
      some ⟨none, some (("u").data), some (("p").data), some (("localhost").data)⟩ ∧
    (restore_site envOverrideNoName).localLookupTried = false := by
  have h := c2_override_after_remote_failure envOverrideNoName .sshFailed
    (by decide) (by decide) (by decide)
  exact ⟨h.1, h.2.1⟩

/-- Restore run whose `database/` subtree exists but holds no `.sql` file. -/
def envNoSql : RestoreEnv :=
  ⟨argsPlain, true, some goodLines, none, true, 0,
   some [(("readme.txt").data)], 1, [], 0, 0, 0⟩

/-- C3 counterexample: with `wp.sql` absent and two other `.sql` files in
the database subtree, restore does not fail: it silently selects the first
listing entry `a.sql` and completes. -/
theorem c3_multiple_sql_counterexample :
    (restore_site envTwoSql).outcome = .retTrue ∧
    (restore_site envTwoSql).dbFileUsed = some (("a.sql").data) ∧
    envTwoSql.dbDirFiles = some [(("a.sql").data), (("b.sql").data)] ∧
    (("wp.sql").data) ∉ [(("a.sql").data), (("b.sql").data)] ∧
    ([(("a.sql").data), (("b.sql").data)].filter endsWithSql).length = 2 := by
  decide

/-- C3 as amended: if `<db_name>.sql` exists it is used; if it is absent and
at least one `.sql` file exists in the database subtree, the first one in
directory-listing order is selected (also when several exist); the restore
fails only when the exact name is absent and no `.sql` file exists. -/
theorem c3_dbfile_lookup_amended (fs : List (List Char)) (dbName : List Char)
    (env : RestoreEnv) (c : WpCreds) (lt : Bool) :
    ((dbName ++ ((".sql").data)) ∈ fs →
      lookupDbFile (some fs) dbName = some (dbName ++ ((".sql").data))) ∧
    ((dbName ++ ((".sql").data)) ∉ fs →
      lookupDbFile (some fs) dbName = (fs.filter endsWithSql).head?) ∧
    (env.inputFileExists = true → resolveRestoreCreds env = .ok c lt →
      env.filesDirExists = true → env.rsyncExit = 0 →
      lookupDbFile env.dbDirFiles (pyStrOpt c.db_name) = none →
      (restore_site env).outcome = .retFalse) := by
  refine ⟨?_, ?_, ?_⟩
  · intro hmem
    simp [lookupDbFile, hmem]
  · intro hnm
    show (if (dbName ++ ((".sql").data)) ∈ fs then some (dbName ++ ((".sql").data))
          else match fs.filter endsWithSql with
            | f :: _ => some f
            | [] => none) = (fs.filter endsWithSql).head?
    rw [if_neg hnm]
    cases hf : fs.filter endsWithSql <;> simp
  · intro hin hres hfd hr hl
    simp [restore_site, hin, restoreBody, hres, restoreAfterCreds, hfd, hr, hl]

/-- Witness for the amended C3: the exact name present, the fallback with
two candidates, and the failing empty case. -/
theorem c3_dbfile_lookup_amended_witness :
    lookupDbFile (some [(("wp.sql").data)]) (("wp").data) = some (("wp.sql").data) ∧
    lookupDbFile (some [(("a.sql").data), (("b.sql").data)]) (("wp").data) =
      ([(("a.sql").data), (("b.sql").data)].filter endsWithSql).head? ∧
    (restore_site envNoSql).outcome = .retFalse := by
  refine ⟨?_, ?_, ?_⟩
  · exact (c3_dbfile_lookup_amended [(("wp.sql").data)] (("wp").data)
      envNoSql goodCreds false).1 (by decide)
  · exact (c3_dbfile_lookup_amended [(("a.sql").data), (("b.sql").data)]
      (("wp").data) envNoSql goodCreds false).2.1 (by decide)
  · exact (c3_dbfile_lookup_amended [] (("wp").data)
      envNoSql goodCreds false).2.2 (by decide) (by decide) (by decide)
      (by decide) (by decide)

/-- C5 counterexample: a restore with the override flag but no `--db-name`,
the remote extraction failing, proceeds with a credentials dictionary whose
name field is absent — no hard error; the dump-file name is then derived
from the rendered `None`. -/
theorem c5_override_missing_field_counterexample :
    (restore_site envOverrideNoName).outcome = .retTrue ∧
    (restore_site envOverrideNoName).credsUsed =
      some ⟨none, some (("u").data), some (("p").data), some (("localhost").data)⟩ ∧
    (restore_site envOverrideNoName).dbFileUsed = some (("None.sql").data) ∧
    envOverrideNoName.args.db_credentials_override = true ∧
    envOverrideNoName.args.db_name = none := by
  decide

/-- C5 as amended: the two parser paths do enforce that all four fields are
present (a missing one is a hard `ValueError`), but the operator-override
path passes the operator's values through unvalidated: a missing field
yields a dictionary with that field absent and the restore proceeds. -/
theorem c5_required_fields_amended :
    (∀ (np : Bool) (lines : List (List Char)) (c : WpCreds),
      parseWpconfig np lines = .ok c →
      c.db_name ≠ none ∧ c.db_user ≠ none ∧ c.db_password ≠ none ∧ c.db_host ≠ none) ∧
    (∀ (env : RestoreEnv) (e : CredError),
      env.args.db_credentials_override = true →
      extractRemote env.remoteLines = .error e →
      resolveRestoreCreds env =
        .ok ⟨env.args.db_name, env.args.db_user, env.args.db_password,
             some (pyOr env.args.db_host (("localhost").data))⟩ false) := by
  constructor
  · intro np lines c h
    unfold parseWpconfig at h
    cases hm : missingOf (lines.foldl (updLine np) initCreds) with
    | nil =>
      simp only [hm] at h
      have hc := Except.ok.inj h
      subst hc
      refine ⟨?_, ?_, ?_, ?_⟩ <;> intro hx <;> simp [missingOf, hx] at hm
    | cons m ms =>
      simp only [hm] at h
      exact absurd h (by simp)
  · intro env e hov he
    unfold resolveRestoreCreds
    rw [he]
    simp [hov]

/-- Witness for the amended C5: the parser-path validation at a concrete
parse, and the override passthrough at a concrete environment. -/
theorem c5_required_fields_amended_witness :
    (goodCreds.db_name ≠ none ∧ goodCreds.db_user ≠ none ∧
     goodCreds.db_password ≠ none ∧ goodCreds.db_host ≠ none) ∧
    resolveRestoreCreds envOverrideNoName =
      .ok ⟨none, some (("u").data), some (("p").data), some (("localhost").data)⟩ false :=
  ⟨c5_required_fields_amended.1 false goodLines goodCreds (by decide),
   c5_required_fields_amended.2 envOverrideNoName .sshFailed (by decide) (by decide)⟩

/-- C6: when table enumeration exits nonzero or yields no output, no drop
command is executed and the restore still proceeds to the database import. -/
theorem c6_enum_failure_tolerated (env : RestoreEnv) (c : WpCreds) (lt : Bool)
    (f : List Char)
    (hin : env.inputFileExists = true)
    (hres : resolveRestoreCreds env = .ok c lt)
    (hfd : env.filesDirExists = true)
    (hr : env.rsyncExit = 0)
    (hl : lookupDbFile env.dbDirFiles (pyStrOpt c.db_name) = some f)
    (henum : env.enumExit ≠ 0 ∨ env.enumStdout = []) :
    (restore_site env).dropExecuted = false ∧
    (restore_site env).importRan = true ∧
    (restore_site env).outcome = .retTrue := by
  have hcond : ¬(env.enumExit = 0 ∧ env.enumStdout ≠ []) := by
    rcases henum with h | h
    · exact fun hc => h hc.1
    · exact fun hc => hc.2 h
  refine ⟨?_, ?_, ?_⟩ <;>
    simp [restore_site, hin, restoreBody, hres, restoreAfterCreds, hfd, hr, hl, hcond]

/-- Witness for C6 at a run whose enumeration exits 1. -/
theorem c6_enum_failure_tolerated_witness :
    (restore_site envImportFail).dropExecuted = false ∧
    (restore_site envImportFail).importRan = true ∧
    (restore_site envImportFail).outcome = .retTrue :=
  c6_enum_failure_tolerated envImportFail goodCreds false (("wp.sql").data)
    (by decide) (by decide) (by decide) (by decide) (by decide) (by decide)

theorem ne_of_mem_not_mem {α : Type} {x : α} {l m : List α}
    (h1 : x ∈ m) (h2 : x ∉ l) : l ≠ m :=
  fun e => h2 (e ▸ h1)

/-- C7: the backup rsync mirrors remote to local and passes no deletion
flag; the restore rsync mirrors local to remote and passes `--delete`. -/
theorem c7_sync_direction (a : Args) (fd : List Char) :
    (("--delete").data) ∉ backupRsyncCmd a fd ∧
    (("--delete").data) ∈ restoreRsyncCmd a fd ∧
    (backupRsyncCmd a fd)[4]? =
      some (a.ssh_user ++ (("@").data) ++ a.ssh_host ++ ((":").data) ++
            a.wp_path ++ (("/").data)) ∧
    (backupRsyncCmd a fd)[5]? = some (fd ++ (("/").data)) ∧
    (restoreRsyncCmd a fd)[5]? = some (fd ++ (("/").data)) ∧
    (restoreRsyncCmd a fd)[6]? =
      some (a.ssh_user ++ (("@").data) ++ a.ssh_host ++ ((":").data) ++
            a.wp_path ++ (("/").data)) := by
  refine ⟨?_, ?_, rfl, rfl, rfl, rfl⟩
  · intro hmem
    simp only [backupRsyncCmd, List.mem_cons, List.not_mem_nil, or_false] at hmem
    rcases hmem with h | h | h | h | h | h
    · exact absurd h (by decide)
    · exact absurd h (by decide)
    · exact absurd h (by decide)
    · have hs : 's' ∈ (("ssh -i ").data) ++ a.ssh_key ++ ((" -p ").data) ++
          (toString a.ssh_port).data := by
        apply List.mem_append_left
        apply List.mem_append_left
        apply List.mem_append_left
        decide
      rw [← h] at hs
      exact absurd hs (by decide)
    · have hs : '@' ∈ a.ssh_user ++ (("@").data) ++ a.ssh_host ++ ((":").data) ++
          a.wp_path ++ (("/").data) := by
        apply List.mem_append_left
        apply List.mem_append_left
        apply List.mem_append_left
        apply List.mem_append_left
        apply List.mem_append_right
        decide
      rw [← h] at hs
      exact absurd hs (by decide)
    · have hs : '/' ∈ fd ++ (("/").data) := by
        apply List.mem_append_right
        decide
      rw [← h] at hs
      exact absurd hs (by decide)
  · simp [restoreRsyncCmd]

theorem underDir_eq_pathUnder (d : List Char) (e : FsEntry) :
    underDir d e = pathUnder d e.path := rfl

theorem pathUnder_ne (d1 d2 : List Char) (p : List (List Char))
    (h : pathUnder d1 p = true) (hne : d1 ≠ d2) : pathUnder d2 p = false := by
  match p with
  | [] => simp [pathUnder] at h
  | [a] => simp [pathUnder] at h
  | a :: b :: r =>
    simp only [pathUnder, decide_eq_true_eq] at h
    subst h
    simp [pathUnder, hne]

theorem filter_path_archive (wa : List FsEntry) (p : List (List Char))
    (h : ∀ e ∈ wa, underDir (("files").data) e = true ∨
      underDir (("database").data) e = true) :
    (createArchive wa).filter (fun e => decide (e.path = p)) =
      wa.filter (fun e => decide (e.path = p)) := by
  unfold createArchive
  rw [List.filter_append, List.filter_filter, List.filter_filter]
  by_cases hdb : pathUnder (("database").data) p = true
  · have hf : pathUnder (("files").data) p = false :=
      pathUnder_ne _ _ p hdb (by decide)
    have e1 : wa.filter (fun e => decide (e.path = p) &&
        underDir (("database").data) e) = wa.filter (fun e => decide (e.path = p)) := by
      apply List.filter_congr
      intro e he
      by_cases hep : e.path = p
      · simp [hep, underDir_eq_pathUnder, hdb]
      · simp [hep]
    have e2 : wa.filter (fun e => decide (e.path = p) &&
        underDir (("files").data) e) = [] := by
      rw [List.filter_eq_nil_iff]
      intro e he
      by_cases hep : e.path = p
      · simp [hep, underDir_eq_pathUnder, hf]
      · simp [hep]
    rw [e1, e2, List.append_nil]
  · by_cases hfi : pathUnder (("files").data) p = true
    · have hdb2 : pathUnder (("database").data) p = false :=
        pathUnder_ne _ _ p hfi (by decide)
      have e1 : wa.filter (fun e => decide (e.path = p) &&
          underDir (("database").data) e) = [] := by
        rw [List.filter_eq_nil_iff]
        intro e he
        by_cases hep : e.path = p
        · simp [hep, underDir_eq_pathUnder, hdb2]
        · simp [hep]
      have e2 : wa.filter (fun e => decide (e.path = p) &&
          underDir (("files").data) e) = wa.filter (fun e => decide (e.path = p)) := by
        apply List.filter_congr
        intro e he
        by_cases hep : e.path = p
        · simp [hep, underDir_eq_pathUnder, hfi]
        · simp [hep]
      rw [e1, e2, List.nil_append]
    · have hdbf : pathUnder (("database").data) p = false := by
        cases hx : pathUnder (("database").data) p
        · rfl
        · exact absurd hx hdb
      have hff : pathUnder (("files").data) p = false := by
        cases hx : pathUnder (("files").data) p
        · rfl
        · exact absurd hx hfi
      have e1 : wa.filter (fun e => decide (e.path = p) &&
          underDir (("database").data) e) = [] := by
        rw [List.filter_eq_nil_iff]
        intro e he
        by_cases hep : e.path = p
        · simp [hep, underDir_eq_pathUnder, hdbf]
        · simp [hep]
      have e2 : wa.filter (fun e => decide (e.path = p) &&
          underDir (("files").data) e) = [] := by
        rw [List.filter_eq_nil_iff]
        intro e he
        by_cases hep : e.path = p
        · simp [hep, underDir_eq_pathUnder, hff]
        · simp [hep]
      have e3 : wa.filter (fun e => decide (e.path = p)) = [] := by
        rw [List.filter_eq_nil_iff]
        intro e he hq
        rw [decide_eq_true_eq] at hq
        rcases h e he with hu | hu <;>
          rw [underDir_eq_pathUnder, hq] at hu
        · exact absurd hu (by simp [hff])
        · exact absurd hu (by simp [hdbf])
      rw [e1, e2, e3, List.nil_append]

/-- C8: packing a WorkingArea whose regular files all lie under `files/` or
`database/` and then extracting the archive reproduces byte-identical
content at every relative path. -/
theorem c8_archive_round_trip (wa : List FsEntry) (p : List (List Char))
    (h : ∀ e ∈ wa, underDir (("files").data) e = true ∨
      underDir (("database").data) e = true) :
    fsLookup (extractArchive (createArchive wa)) p = fsLookup wa p := by
  unfold fsLookup extractArchive
  rw [filter_path_archive wa p h]

/-- A concrete two-file WorkingArea. -/
def waSample : List FsEntry :=
  [⟨[("files").data, ("wp-config.php").data], [60, 63]⟩,
   ⟨[("database").data, ("wp.sql").data], [83, 69]⟩]

/-- Witness for C8 at the concrete WorkingArea and the database file path. -/
theorem c8_archive_round_trip_witness :
    fsLookup (extractArchive (createArchive waSample))
        [("database").data, ("wp.sql").data] =
      fsLookup waSample [("database").data, ("wp.sql").data] :=
  c8_archive_round_trip waSample [("database").data, ("wp.sql").data] (by decide)

/-- A backup environment in which every step succeeds. -/
def envBackupOk : BackupEnv := ⟨argsPlain, some goodLines, 0, 0⟩

/-- C9: no run of backup or restore ends, on any exit path, with the
WorkingArea still in existence: whenever the temporary directory was
created, it is destroyed (the `with tempfile.TemporaryDirectory()` scope). -/
theorem c9_workingarea_scoped (eb : BackupEnv) (er : RestoreEnv) :
    ((backup_site eb).tempCreated = true → (backup_site eb).tempDestroyed = true) ∧
    ((restore_site er).tempCreated = true → (restore_site er).tempDestroyed = true) := by
  constructor
  · cases hx : extractRemote eb.remoteLines with
    | error e => simp [backup_site, hx]
    | ok c => simp [backup_site, hx]
  · cases her : er.inputFileExists with
    | false => simp [restore_site, her]
    | true => simp [restore_site, her]

/-- Witness for C9 at concrete successful backup and restore runs. -/
theorem c9_workingarea_scoped_witness :
    (backup_site envBackupOk).tempDestroyed = true ∧
    (restore_site envImportFail).tempDestroyed = true :=
  ⟨(c9_workingarea_scoped envBackupOk envImportFail).1 (by decide),
   (c9_workingarea_scoped envBackupOk envImportFail).2 (by decide)⟩

/-- C10: both credential patterns accept each of the four quote positions
independently, so a line with mismatched opening/closing quotes is accepted
and its value extracted; and the value group requires at least one
non-quote character, so an empty-string value never matches — the field
stays unset and is reported missing. -/
theorem c10_quote_positions_independent :
    (∀ (np : Bool) (q : Bool × Bool × Bool × Bool) (v : List Char),
      (∀ c ∈ v, isQuoteChar c = false) → v ≠ [] →
      searchDefine nmName np (mkLine q nmName v) = some v) ∧
    (∀ (key : List Char) (np : Bool) (line v : List Char),
      searchDefine key np line = some v → v ≠ []) ∧
    parseWpconfig false [mkLine (true, false, false, true) nmName []] =
      .error (.missing [("db_name").data, ("db_user").data, ("db_password").data]) ∧
    parseWpconfig true [mkLine (true, false, false, true) nmName []] =
      .error (.missing [("db_name").data, ("db_user").data, ("db_password").data]) :=
  ⟨fun np q v hv hne => searchDefine_mkLine nmName np q v hv hne,
   fun key np line v hsv => searchDefine_ne_nil key np line v hsv,
   by decide, by decide⟩

/-- Witness for C10 at a line whose key and value quotes are both
mismatched. -/
theorem c10_quote_positions_independent_witness :
    searchDefine nmName true
        (mkLine (true, false, false, true) nmName (("wp").data)) =
      some (("wp").data) ∧
    (("wp").data) ≠ [] :=
  have hs := c10_quote_positions_independent.1 true (true, false, false, true)
    (("wp").data) (by decide) (by decide)
  ⟨hs, c10_quote_positions_independent.2.1 nmName true _ _ hs⟩

end WpBackup
